import Mathlib

/-!
# SatTraker — verification of the tracking core against its specification

Shallow embedding of the tracking/calibration core of `SatTrakerBetaV5.py`.
Python floats are modelled as exact rationals (`ℚ`); values produced by
external math-library collaborators (`math.degrees`, `math.atan2`,
`math.cos`, the ephemeris) are taken as parameters where they feed the
logic under scrutiny.  `math.trunc` / `int(...)` (truncation toward zero)
is modelled by `qtrunc`.
-/

set_option linter.constructorNameAsVariable false

namespace SatTraker

/-- Python's `math.trunc` / `int(...)` on a float: truncation toward zero. -/
def qtrunc (q : ℚ) : ℤ := if 0 ≤ q then ⌊q⌋ else ⌈q⌉

/- ## Coordinate codec (rad_to_sexagesimal_alt, lines 982-991, and
read_to_hash, lines 900-905) -/

/-- `self.alt_d = math.trunc(self.altdeg)` — integer degree field of the
sexagesimal encoding (input already converted to decimal degrees). -/
def alt_d (v : ℚ) : ℤ := qtrunc v

/-- `self.alt_m = math.trunc((abs(self.altdeg) - abs(self.alt_d))*60)`. -/
def alt_m (v : ℚ) : ℤ := qtrunc ((|v| - |(alt_d v : ℚ)|) * 60)

/-- `self.alt_s = (((abs(self.altdeg) - abs(self.alt_d))*60) - abs(self.alt_m))*60`. -/
def alt_s (v : ℚ) : ℚ := ((|v| - |(alt_d v : ℚ)|) * 60 - |(alt_m v : ℚ)|) * 60

/-- The seconds field actually written into the `:Sa`/`:Sd` command string is
`str(int(self.alt_s))`, i.e. the truncated seconds. -/
def sentSec (v : ℚ) : ℤ := qtrunc (alt_s v)

/-- `read_to_hash` (Degrees branch): `self.respdegrees =
((((self.sec/60)+self.min)/60)+self.deg)`. -/
def respdegrees (deg min sec : ℤ) : ℚ := ((sec / 60 : ℚ) + min) / 60 + deg

/-- Encode a decimal-degree value to the sexagesimal fields sent on the wire,
then decode them exactly as the serial-response parser does. -/
def sexaRoundTrip (v : ℚ) : ℚ := respdegrees (alt_d v) (alt_m v) (sentSec v)

/- ## Target locator (videotrak.get_x_y)

The camera frame (after grayscale conversion and CLAHE, both external
`cv2` collaborators) is a `uint8` image modelled as `ℕ → ℕ → ℕ`
(row-major: first index is the row / `y`).  The reference template
`imageroi` becomes a float array after the first blend, so it is modelled as
`ℕ → ℕ → ℚ`. -/

/-- `int8` arithmetic and numpy's `astype(np.int8)` wrap modulo 256 into
`[-128, 127]`. -/
def int8wrap (z : ℤ) : ℤ := (z + 128) % 256 - 128

/-- `np.absolute` on an `int8` array stays `int8`: `|-128|` overflows back to
`-128`; all other values are unaffected. -/
def int8abs (z : ℤ) : ℤ := int8wrap |z|

/-- `astype(np.int8)` applied to one (possibly fractional) pixel value:
truncate toward zero, then wrap. -/
def npInt8 (q : ℚ) : ℤ := int8wrap (qtrunc q)

/-- One pixel's contribution to
`np.absolute(imagecompforsub - imageroiforsub)` (lines 86-89): the
subtraction happens in `int8` after both operands were cast to `int8`. -/
def pixDiff (a b : ℚ) : ℤ := int8abs (int8wrap (npInt8 a - npInt8 b))

/-- `np.sum(np.absolute(...))` over the candidate window at top-left
`(x, y)` against the template (line 90; `np.sum` promotes to a wide
integer, so the summation itself does not wrap). -/
def imagediffSum (img : ℕ → ℕ → ℕ) (roi : ℕ → ℕ → ℚ) (x y rw rh : ℕ) : ℤ :=
  ∑ j ∈ Finset.range rh, ∑ i ∈ Finset.range rw,
    pixDiff (img (y + j) (x + i)) (roi j i)

/-- `np.sum(imageroi)`. -/
def roiSum (roi : ℕ → ℕ → ℚ) (rw rh : ℕ) : ℚ :=
  ∑ j ∈ Finset.range rh, ∑ i ∈ Finset.range rw, roi j i

/-- `imagediff = (imagediff/(np.sum(imageroi)))*100` (line 91): the
normalized percentage difference score of one candidate window. -/
def imagediffScore (img : ℕ → ℕ → ℕ) (roi : ℕ → ℕ → ℚ) (x y rw rh : ℕ) : ℚ :=
  (imagediffSum img roi x y rw rh : ℚ) / roiSum roi rw rh * 100

/-- The reference score stated by the spec: summed true absolute pixel
difference divided by the template's total intensity, as a percentage.
Stated from the spec's words, for comparison with `imagediffScore`. -/
def refDiffScore (img : ℕ → ℕ → ℕ) (roi : ℕ → ℕ → ℚ) (x y rw rh : ℕ) : ℚ :=
  (∑ j ∈ Finset.range rh, ∑ i ∈ Finset.range rw,
      |(img (y + j) (x + i) : ℚ) - roi j i|) / roiSum roi rw rh * 100

/-- Border correction of a candidate coordinate (lines 75-82):
`if xcheck < 0: xcheck = 0` / `elif xcheck > (origwidth - roiwidth):
xcheck = origwidth - roiwidth`. -/
def clampCoord (c bound : ℤ) : ℤ :=
  if c < 0 then 0 else if c > bound then bound else c

/-- The neighbourhood scanned by one pass of the feature search: `ycheck in
range(searchy1-15, searchy1+15)` outer, `xcheck in range(searchx1-15,
searchx1+15)` inner; pairs are `(ycheck, xcheck)`. -/
def scanPositions (sx sy : ℤ) : List (ℤ × ℤ) :=
  (List.range 30).flatMap fun j =>
    (List.range 30).map fun i => (sy - 15 + (j : ℤ), sx - 15 + (i : ℤ))

/-- One candidate of the scan: clamp the coordinates to the frame, score the
window, and keep the running minimum (`finalroidiff`, `searchx2`,
`searchy2`, `difflowered`); `none` plays the role of the initial
`float('inf')`. -/
def scanUpdate (img : ℕ → ℕ → ℕ) (roi : ℕ → ℕ → ℚ) (w h rw rh : ℕ)
    (acc : Option (ℚ × ℤ × ℤ) × Bool) (p : ℤ × ℤ) :
    Option (ℚ × ℤ × ℤ) × Bool :=
  let yc := clampCoord p.1 ((h : ℤ) - (rh : ℤ))
  let xc := clampCoord p.2 ((w : ℤ) - (rw : ℤ))
  let score := imagediffScore img roi xc.toNat yc.toNat rw rh
  match acc.1 with
  | none => (some (score, xc, yc), true)
  | some (b, bx, by2) =>
    if score < b then (some (score, xc, yc), true) else acc

/-- One full neighbourhood scan (the two `for` loops), starting with
`difflowered = False`. -/
def scanOnce (img : ℕ → ℕ → ℕ) (roi : ℕ → ℕ → ℚ) (w h rw rh : ℕ) (sx sy : ℤ)
    (best : Option (ℚ × ℤ × ℤ)) : Option (ℚ × ℤ × ℤ) × Bool :=
  (scanPositions sx sy).foldl (scanUpdate img roi w h rw rh) (best, false)

/-- The `while keepgoing` loop: rescan while the previous scan lowered the
minimum.  The wall-clock deadline (200 ms, real time, not expressible in
this embedding) is modelled by the `fuel` bound on the number of scans; the
scan centre `(searchx1, searchy1)` is never reassigned by the code, so every
pass scans the same neighbourhood. -/
def searchLoop (img : ℕ → ℕ → ℕ) (roi : ℕ → ℕ → ℚ) (w h rw rh : ℕ)
    (sx sy : ℤ) : ℕ → Option (ℚ × ℤ × ℤ) → Option (ℚ × ℤ × ℤ)
  | 0, best => best
  | Nat.succ fuel, best =>
    let r := scanOnce img roi w h rw rh sx sy best
    if r.2 then searchLoop img roi w h rw rh sx sy fuel r.1 else r.1

theorem searchLoop_succ (img : ℕ → ℕ → ℕ) (roi : ℕ → ℕ → ℚ) (w h rw rh : ℕ)
    (sx sy : ℤ) (fuel : ℕ) (best : Option (ℚ × ℤ × ℤ)) :
    searchLoop img roi w h rw rh sx sy (fuel + 1) best
      = if (scanOnce img roi w h rw rh sx sy best).2 then
          searchLoop img roi w h rw rh sx sy fuel
            (scanOnce img roi w h rw rh sx sy best).1
        else (scanOnce img roi w h rw rh sx sy best).1 := rfl

/-- `roibox` is `[(x1, y1), (x2, y2)]`: top-left and bottom-right corners. -/
abbrev ROIBox := (ℤ × ℤ) × (ℤ × ℤ)

/-- Result of one `get_x_y` call: the (possibly moved) ROI box, the
(possibly blended) template, and `trackSettings.foundtarget`. -/
structure LocateResult where
  roibox : ROIBox
  imageroi : ℕ → ℕ → ℚ
  found : Bool

/-- `imageroi = (imageroi * 0.9) + (learnimg * 0.1)` for one pixel
(line 119). -/
def blendPix (t p : ℚ) : ℚ := t * (9 / 10) + p * (1 / 10)

/-- Lines 112-126: accept the search outcome only if the final minimum
difference is strictly below 20; on acceptance move the ROI to the minimum
and blend the template, otherwise return the ROI and template unchanged. -/
def featureAccept (img : ℕ → ℕ → ℕ) (roibox : ROIBox) (roi : ℕ → ℕ → ℚ)
    (rw rh : ℕ) : Option (ℚ × ℤ × ℤ) → LocateResult
  | some (d, x2, y2) =>
    if d < 20 then
      { roibox := ((x2, y2), (x2 + (rw : ℤ), y2 + (rh : ℤ)))
        imageroi := fun j i => blendPix (roi j i) (img (y2.toNat + j) (x2.toNat + i))
        found := true }
    else { roibox := roibox, imageroi := roi, found := false }
  | none => { roibox := roibox, imageroi := roi, found := false }

/-- The feature branch of `get_x_y`: search around the last known top-left
corner, then accept or reject. -/
def featureLocate (img : ℕ → ℕ → ℕ) (w h : ℕ) (roibox : ROIBox)
    (roi : ℕ → ℕ → ℚ) (rw rh fuel : ℕ) : LocateResult :=
  featureAccept img roibox roi rw rh
    (searchLoop img roi w h rw rh roibox.1.1 roibox.1.2 fuel none)

/-- The final minimum score of the search (`finalroidiff`; `none` when it is
still `float('inf')`). -/
def featureFinalScore (img : ℕ → ℕ → ℕ) (w h : ℕ) (roibox : ROIBox)
    (roi : ℕ → ℕ → ℚ) (rw rh fuel : ℕ) : Option ℚ :=
  (searchLoop img roi w h rw rh roibox.1.1 roibox.1.2 fuel none).map
    fun p => p.1

/-- `finalroidiff < 20` with `float('inf')` never below the threshold. -/
def scoreAccepted : Option ℚ → Bool
  | none => false
  | some d => decide (d < 20)

/-- Brightness branch of `get_x_y` (lines 146-155): re-centre the ROI on the
blob centroid (`cXdiff = (roiwidth/2) - cX[0]`, `searchx1 =
int(searchx1 - cXdiff)`), clamping only below at 0; `none` models the
moments call failing (empty `cX`), which leaves the corner untouched. -/
def brightRecenter (sx sy : ℤ) (rw rh : ℕ) (centroid : Option (ℤ × ℤ)) :
    ROIBox :=
  match centroid with
  | none => ((sx, sy), (sx + (rw : ℤ), sy + (rh : ℤ)))
  | some (cx, cy) =>
    let cXdiff : ℚ := (rw : ℚ) / 2 - (cx : ℚ)
    let cYdiff : ℚ := (rh : ℚ) / 2 - (cy : ℚ)
    let sx1 := qtrunc ((sx : ℚ) - cXdiff)
    let sy1 := qtrunc ((sy : ℚ) - cYdiff)
    let sx2 := if sx1 < 0 then 0 else sx1
    let sy2 := if sy1 < 0 then 0 else sy1
    ((sx2, sy2), (sx2 + (rw : ℤ), sy2 + (rh : ℤ)))

/- ## Tracking controller: rate clamping (sat_track, ASCOM branches) -/

/-- The clamp applied before every `MoveAxis` call in `sat_track`, e.g. lines
523-530:
`if azrate > self.axis0rate: azrate = self.axis0rate` followed by
`if azrate < (-1*self.axis0rate): azrate = (-1*self.axis0rate)`. -/
def clampRate (r L : ℚ) : ℚ :=
  let r1 := if r > L then L else r
  if r1 < -1 * L then -1 * L else r1

/-- Initial-slew Alt/Az branch (lines 452-466): raw rates are the 1-second
finite differences `azrate = degrees(radaz2 - radaz)`,
`altrate = degrees(radalt2 - radalt)` (supplied here in degrees), each
clamped to the per-axis maximum before `MoveAxis`. -/
def ascomSlewAltAzRates (azdelta altdelta L0 L1 : ℚ) : ℚ × ℚ :=
  (clampRate azdelta L0, clampRate altdelta L1)

/-- Initial-slew Eq branch (lines 477-491):
`rarate = -1*(degrees(radra2 - radra))*cos(raddec2)`,
`decrate = degrees(raddec2 - raddec)`; `cosdec` is the math-library value of
`cos(raddec2)`. -/
def ascomSlewEqRates (dradeg cosdec ddecdeg L0 L1 : ℚ) : ℚ × ℚ :=
  (clampRate (-1 * dradeg * cosdec) L0, clampRate ddecdeg L1)

/-- Ephemeris-only following, Alt/Az (lines 515-532):
`azrate = trueazrate+(diffaz*0.75)`, `altrate = truealtrate+(diffalt*0.75)`. -/
def ascomFollowAltAzRates (trueazrate truealtrate diffaz diffalt L0 L1 : ℚ) : ℚ × ℚ :=
  (clampRate (trueazrate + diffaz * (75 / 100)) L0,
   clampRate (truealtrate + diffalt * (75 / 100)) L1)

/-- Ephemeris-only following, Eq (lines 555-571):
`rarate = truerarate-(diffra*0.3)`, `decrate = truedecrate+(diffdec*0.3)`. -/
def ascomFollowEqRates (truerarate truedecrate diffra diffdec L0 L1 : ℚ) : ℚ × ℚ :=
  (clampRate (truerarate - diffra * (3 / 10)) L0,
   clampRate (truedecrate + diffdec * (3 / 10)) L1)

/-- Visual-lock following, Alt/Az (lines 682-700): `azrate = azrate + azdiff`,
`altrate = altrate + altdiff` on top of the ephemeris finite differences. -/
def ascomVisualAltAzRates (azrate altrate azdiff altdiff L0 L1 : ℚ) : ℚ × ℚ :=
  (clampRate (azrate + azdiff) L0, clampRate (altrate + altdiff) L1)

/-- Visual-lock following, Eq (lines 731-746): `rarate = rarate +
degrees(radiff)`, `decrate = decrate + degrees(decdiff)`. -/
def ascomVisualEqRates (rarate decrate radiffdeg decdiffdeg L0 L1 : ℚ) : ℚ × ℚ :=
  (clampRate (rarate + radiffdeg) L0, clampRate (decrate + decdiffdeg) L1)

/-- The emitted rate always lands in `[-L, L]` when the axis limit is
nonnegative. -/
theorem clampRate_mem (r L : ℚ) (hL : 0 ≤ L) :
    -L ≤ clampRate r L ∧ clampRate r L ≤ L := by
  unfold clampRate
  dsimp only
  split_ifs <;> constructor <;> linarith

/-- Both components of a per-branch rate pair lie within the respective axis
limits. -/
def ratePairWithin (p : ℚ × ℚ) (L0 L1 : ℚ) : Prop :=
  -L0 ≤ p.1 ∧ p.1 ≤ L0 ∧ -L1 ≤ p.2 ∧ p.2 ≤ L1

/-- C1: in every ASCOM controller branch (initial slew, ephemeris-only
following, visual-lock following, on Alt/Az and Eq mounts), the rates passed
to `MoveAxis` satisfy `-L ≤ emitted ≤ L` for the per-axis maximum rates
obtained at connect time (which are nonnegative). -/
theorem c1_rate_clamping (L0 L1 : ℚ) (h0 : 0 ≤ L0) (h1 : 0 ≤ L1)
    (azdelta altdelta dradeg cosdec ddecdeg trueazrate truealtrate diffaz
     diffalt truerarate truedecrate diffra diffdec azrate altrate azdiff
     altdiff rarate decrate radiffdeg decdiffdeg : ℚ) :
    ratePairWithin (ascomSlewAltAzRates azdelta altdelta L0 L1) L0 L1 ∧
    ratePairWithin (ascomSlewEqRates dradeg cosdec ddecdeg L0 L1) L0 L1 ∧
    ratePairWithin
      (ascomFollowAltAzRates trueazrate truealtrate diffaz diffalt L0 L1) L0 L1 ∧
    ratePairWithin
      (ascomFollowEqRates truerarate truedecrate diffra diffdec L0 L1) L0 L1 ∧
    ratePairWithin
      (ascomVisualAltAzRates azrate altrate azdiff altdiff L0 L1) L0 L1 ∧
    ratePairWithin
      (ascomVisualEqRates rarate decrate radiffdeg decdiffdeg L0 L1) L0 L1 := by
  refine ⟨?_, ?_, ?_, ?_, ?_, ?_⟩ <;>
    exact ⟨(clampRate_mem _ _ h0).1, (clampRate_mem _ _ h0).2,
           (clampRate_mem _ _ h1).1, (clampRate_mem _ _ h1).2⟩

/-- Witness for C1 at the spec's example: limits `L = 2 °/s`, computed rates
`5` and `-9 °/s` (the clamp yields `2` and `-2` respectively). -/
theorem c1_rate_clamping_witness :
    ratePairWithin (ascomFollowAltAzRates 5 (-9) 0 0 2 2) 2 2 ∧
    ascomFollowAltAzRates 5 (-9) 0 0 2 2 = (2, -2) :=
  ⟨(c1_rate_clamping 2 2 (by norm_num) (by norm_num) 0 0 0 0 0 5 (-9) 0 0 0 0
      0 0 0 0 0 0 0 0 0 0).2.2.1, by norm_num [ascomFollowAltAzRates, clampRate]⟩

/- ## C3: sexagesimal round trip -/

/-- C3 counterexample: the decimal value `-1/2 ∈ [-360, 360]` encodes to
`d = 0, m = 30, s = 0` and the serial-response parser decodes those fields to
`+1/2`, an error of a full degree — far more than one arcsecond.  The
round-trip property fails for negative values because the encoder emits
magnitude minutes/seconds next to a signed (here zero) degree field while the
decoder adds `min/60 + sec/3600` to the degree. -/
theorem c3_sexagesimal_roundtrip_counterexample :
    -360 ≤ (-(1 / 2) : ℚ) ∧ (-(1 / 2) : ℚ) ≤ 360 ∧
    ¬ |sexaRoundTrip (-(1 / 2)) - (-(1 / 2))| ≤ 1 / 3600 := by
  have hd : alt_d (-(1 / 2)) = 0 := by norm_num [alt_d, qtrunc]
  have hm : alt_m (-(1 / 2)) = 30 := by
    rw [alt_m, hd, qtrunc]
    rw [show |(-(1 / 2) : ℚ)| = 1 / 2 by norm_num]
    norm_num
  have hs : alt_s (-(1 / 2)) = 0 := by
    rw [alt_s, hd, hm]
    rw [show |(-(1 / 2) : ℚ)| = 1 / 2 by norm_num]
    norm_num
  have hsec : sentSec (-(1 / 2)) = 0 := by
    rw [sentSec, hs, qtrunc]
    norm_num
  rw [sexaRoundTrip, hd, hm, hsec, respdegrees]
  norm_num

/-- C3 amended: for decimal degree values `v` in `[0, 360]` the sexagesimal
encode/decode round trip (with the seconds field truncated to an integer, as
written into the command string) reproduces `v` within one arcsecond.  For
negative `v` the property fails (see the counterexample). -/
theorem c3_sexagesimal_roundtrip_nonneg (v : ℚ) (h0 : 0 ≤ v) (h1 : v ≤ 360) :
    |sexaRoundTrip v - v| ≤ 1 / 3600 := by
  have hd : alt_d v = ⌊v⌋ := by rw [alt_d, qtrunc, if_pos h0]
  have hdnn : (0 : ℚ) ≤ (⌊v⌋ : ℚ) := by exact_mod_cast Int.floor_nonneg.2 h0
  have hann : (0 : ℚ) ≤ (v - ⌊v⌋) * 60 :=
    mul_nonneg (sub_nonneg.2 (Int.floor_le v)) (by norm_num)
  have hm : alt_m v = ⌊(v - ⌊v⌋) * 60⌋ := by
    rw [alt_m, hd, abs_of_nonneg h0, abs_of_nonneg hdnn, qtrunc, if_pos hann]
  have hmnn : (0 : ℚ) ≤ (⌊(v - ⌊v⌋) * 60⌋ : ℚ) := by
    exact_mod_cast Int.floor_nonneg.2 hann
  have hs : alt_s v = ((v - ⌊v⌋) * 60 - ⌊(v - ⌊v⌋) * 60⌋) * 60 := by
    rw [alt_s, hd, hm, abs_of_nonneg h0, abs_of_nonneg hdnn, abs_of_nonneg hmnn]
  have hsnn : 0 ≤ alt_s v := by
    rw [hs]
    exact mul_nonneg (sub_nonneg.2 (Int.floor_le _)) (by norm_num)
  have hsec : sentSec v = ⌊alt_s v⌋ := by rw [sentSec, qtrunc, if_pos hsnn]
  rw [sexaRoundTrip, hd, hm, hsec, respdegrees, hs]
  set a := (v - (⌊v⌋ : ℚ)) * 60 with ha
  set s := (a - (⌊a⌋ : ℚ)) * 60 with hs2
  have hf1 : (⌊s⌋ : ℚ) ≤ s := Int.floor_le s
  have hf2 : s < ⌊s⌋ + 1 := Int.lt_floor_add_one s
  rw [abs_le]
  constructor <;> linarith [ha, hs2]

/-- Witness for the amended C3 at the spec's example `v = 123.456°`
(`d = 123, m = 27, s = 21.6`). -/
theorem c3_sexagesimal_roundtrip_nonneg_witness :
    |sexaRoundTrip (123456 / 1000) - 123456 / 1000| ≤ 1 / 3600 :=
  c3_sexagesimal_roundtrip_nonneg (123456 / 1000) (by norm_num) (by norm_num)

/- ## C6: acceptance threshold of the feature strategy -/

/-- C6: the feature locator reports `found` exactly when the final minimum
normalized difference score is strictly below 20, and on a miss it returns
the ROI box unchanged (same corners, hence same dimensions). -/
theorem c6_found_iff_score_below_20 (img : ℕ → ℕ → ℕ) (w h : ℕ)
    (roibox : ROIBox) (roi : ℕ → ℕ → ℚ) (rw rh fuel : ℕ) :
    (featureLocate img w h roibox roi rw rh fuel).found
      = scoreAccepted (featureFinalScore img w h roibox roi rw rh fuel) ∧
    ((featureLocate img w h roibox roi rw rh fuel).found = false →
      (featureLocate img w h roibox roi rw rh fuel).roibox = roibox) := by
  unfold featureLocate featureFinalScore
  cases hs : searchLoop img roi w h rw rh roibox.1.1 roibox.1.2 fuel none with
  | none => simp [featureAccept, scoreAccepted]
  | some p =>
    obtain ⟨d, x2, y2⟩ := p
    by_cases hd : d < 20
    · simp [featureAccept, scoreAccepted, hd]
    · simp [featureAccept, scoreAccepted, hd]

/-- Witness for C6: with no scan budget the score stays at infinity, the
locator reports not-found and hands back the ROI it was given. -/
theorem c6_found_iff_score_below_20_witness :
    (featureLocate (fun _ _ => 0) 1 1 ((0, 0), (1, 1)) (fun _ _ => 0) 1 1 0).found
      = false ∧
    (featureLocate (fun _ _ => 0) 1 1 ((0, 0), (1, 1)) (fun _ _ => 0) 1 1 0).roibox
      = ((0, 0), (1, 1)) := by
  have h := c6_found_iff_score_below_20 (fun _ _ => 0) 1 1 ((0, 0), (1, 1))
    (fun _ _ => 0) 1 1 0
  have hf : (featureLocate (fun _ _ => 0) 1 1 ((0, 0), (1, 1))
      (fun _ _ => 0) 1 1 0).found = false := by
    rw [h.1]; rfl
  exact ⟨hf, h.2 hf⟩

/- ## C9: template blending on acceptance -/

/-- C9: after an accepted match the template is blended, not replaced:
each pixel of the new template is `0.9` times the old pixel plus `0.1` times
the observed patch pixel; in particular a constant-`100` template blended
with a constant-`200` patch gives the constant `110`. -/
theorem c9_template_blend (img : ℕ → ℕ → ℕ) (roibox : ROIBox)
    (roi : ℕ → ℕ → ℚ) (rw rh : ℕ) (d : ℚ) (x2 y2 : ℤ) (hacc : d < 20) :
    (∀ j i, (featureAccept img roibox roi rw rh (some (d, x2, y2))).imageroi j i
        = (9 / 10) * roi j i + (1 / 10) * (img (y2.toNat + j) (x2.toNat + i) : ℚ)) ∧
    blendPix 100 200 = 110 := by
  constructor
  · intro j i
    simp only [featureAccept, if_pos hacc, blendPix]
    ring
  · norm_num [blendPix]

/-- Witness for C9: an accepted match (score 5 < 20) over a constant-`200`
patch blends a constant-`100` template into a constant-`110` one. -/
theorem c9_template_blend_witness :
    (featureAccept (fun _ _ => 200) ((0, 0), (1, 1)) (fun _ _ => 100) 1 1
      (some (5, 0, 0))).imageroi 0 0 = 110 := by
  have h := (c9_template_blend (fun _ _ => 200) ((0, 0), (1, 1))
    (fun _ _ => 100) 1 1 5 0 0 (by norm_num)).1 0 0
  rw [h]
  norm_num

/- ## C7: the int8-cast difference score versus the reference score -/

/-- `qtrunc` is the identity on natural pixel values. -/
theorem qtrunc_natCast (n : ℕ) : qtrunc (n : ℚ) = n := by
  rw [qtrunc, if_pos (by positivity)]
  exact Int.floor_natCast n

/-- For `uint8` pixels whose true difference is at most 127, the int8-cast
pipeline computes the true absolute difference. -/
theorem pixDiff_eq_abs (a b : ℕ) (ha : a ≤ 255) (hb : b ≤ 255)
    (hd : |(a : ℤ) - b| ≤ 127) :
    pixDiff (a : ℚ) (b : ℚ) = |(a : ℤ) - (b : ℤ)| := by
  rw [pixDiff, npInt8, npInt8, qtrunc_natCast, qtrunc_natCast]
  simp only [int8wrap, int8abs, Int.abs_eq_natAbs] at *
  omega

/-- C7 counterexample: a one-pixel window of value 200 against a one-pixel
template of value 10.  The int8 cast turns 200 into −56, so the code's score
is `66/10·100 = 660` while the reference (true absolute difference) score is
`190/10·100 = 1900`. -/
theorem c7_int8_score_counterexample :
    imagediffScore (fun _ _ => 200) (fun _ _ => 10) 0 0 1 1 = 660 ∧
    refDiffScore (fun _ _ => 200) (fun _ _ => 10) 0 0 1 1 = 1900 ∧
    imagediffScore (fun _ _ => 200) (fun _ _ => 10) 0 0 1 1
      ≠ refDiffScore (fun _ _ => 200) (fun _ _ => 10) 0 0 1 1 := by
  have h1 : imagediffScore (fun _ _ => 200) (fun _ _ => 10) 0 0 1 1 = 660 := by
    rw [imagediffScore, imagediffSum, roiSum]
    rw [show pixDiff ((200 : ℕ) : ℚ) 10 = 66 by
      rw [show ((200 : ℕ) : ℚ) = ((200 : ℚ)) by norm_num]
      rw [pixDiff, npInt8, npInt8]
      rw [show qtrunc (200 : ℚ) = 200 by rw [qtrunc, if_pos (by norm_num)]; norm_num]
      rw [show qtrunc (10 : ℚ) = 10 by rw [qtrunc, if_pos (by norm_num)]; norm_num]
      norm_num [int8wrap, int8abs]]
    norm_num
  have h2 : refDiffScore (fun _ _ => 200) (fun _ _ => 10) 0 0 1 1 = 1900 := by
    rw [refDiffScore, roiSum]
    norm_num
  exact ⟨h1, h2, by rw [h1, h2]; norm_num⟩

/-- C7 amended: the int8-cast score agrees with the reference score exactly
on windows where every per-pixel true difference is at most 127; above that
the cast wraps (values ≥ 128 become negative) and the score diverges, as the
counterexample shows. -/
theorem c7_int8_score_agrees_below_128 (img roi : ℕ → ℕ → ℕ) (x y rw rh : ℕ)
    (himg : ∀ j i, img j i ≤ 255) (hroi : ∀ j i, roi j i ≤ 255)
    (hclose : ∀ j i, |(img (y + j) (x + i) : ℤ) - roi j i| ≤ 127) :
    imagediffScore img (fun j i => (roi j i : ℚ)) x y rw rh
      = refDiffScore img (fun j i => (roi j i : ℚ)) x y rw rh := by
  rw [imagediffScore, refDiffScore]
  have hnum : (imagediffSum img (fun j i => (roi j i : ℚ)) x y rw rh : ℚ)
      = ∑ j ∈ Finset.range rh, ∑ i ∈ Finset.range rw,
          |(img (y + j) (x + i) : ℚ) - (roi j i : ℚ)| := by
    rw [imagediffSum]
    push_cast
    refine Finset.sum_congr rfl fun j _ => Finset.sum_congr rfl fun i _ => ?_
    rw [pixDiff_eq_abs (img (y + j) (x + i)) (roi j i) (himg _ _) (hroi _ _)
      (hclose j i)]
    push_cast
    rfl
  rw [hnum]

/-- Witness for the amended C7: pixel 105 against template pixel 100 (true
difference 5 ≤ 127): both scores agree. -/
theorem c7_int8_score_agrees_below_128_witness :
    imagediffScore (fun _ _ => 105) (fun j i => (((fun _ _ => 100) : ℕ → ℕ → ℕ) j i : ℚ)) 0 0 1 1
      = refDiffScore (fun _ _ => 105) (fun j i => (((fun _ _ => 100) : ℕ → ℕ → ℕ) j i : ℚ)) 0 0 1 1 :=
  c7_int8_score_agrees_below_128 (fun _ _ => 105) (fun _ _ => 100) 0 0 1 1
    (fun _ _ => by norm_num) (fun _ _ => by norm_num) (fun _ _ => by norm_num)

/- ## C4: ROI containment in the frame -/

/-- A recorded search minimum always carries coordinates clamped into
`[0, w - rw] × [0, h - rh]`. -/
def posOk (w h rw rh : ℕ) (p : Option (ℚ × ℤ × ℤ)) : Prop :=
  ∀ d x y, p = some (d, x, y) →
    0 ≤ x ∧ x ≤ (w : ℤ) - (rw : ℤ) ∧ 0 ≤ y ∧ y ≤ (h : ℤ) - (rh : ℤ)

theorem clampCoord_mem (c bound : ℤ) (hb : 0 ≤ bound) :
    0 ≤ clampCoord c bound ∧ clampCoord c bound ≤ bound := by
  unfold clampCoord
  split_ifs <;> omega

theorem scanUpdate_posOk (img : ℕ → ℕ → ℕ) (roi : ℕ → ℕ → ℚ) (w h rw rh : ℕ)
    (hw : rw ≤ w) (hh : rh ≤ h) (acc : Option (ℚ × ℤ × ℤ) × Bool) (p : ℤ × ℤ)
    (ha : posOk w h rw rh acc.1) :
    posOk w h rw rh (scanUpdate img roi w h rw rh acc p).1 := by
  have hxb : (0 : ℤ) ≤ (w : ℤ) - (rw : ℤ) := by
    have := Int.ofNat_le.2 hw
    omega
  have hyb : (0 : ℤ) ≤ (h : ℤ) - (rh : ℤ) := by
    have := Int.ofNat_le.2 hh
    omega
  have hx := clampCoord_mem p.2 ((w : ℤ) - (rw : ℤ)) hxb
  have hy := clampCoord_mem p.1 ((h : ℤ) - (rh : ℤ)) hyb
  intro d x y heq
  rw [scanUpdate] at heq
  cases hacc : acc.1 with
  | none =>
    rw [hacc] at heq
    simp only [Option.some.injEq, Prod.mk.injEq] at heq
    obtain ⟨-, hx2, hy2⟩ := heq
    subst hx2
    subst hy2
    exact ⟨hx.1, hx.2, hy.1, hy.2⟩
  | some b =>
    obtain ⟨bd, bx, by2⟩ := b
    rw [hacc] at heq
    simp only [] at heq
    split at heq
    · simp only [Option.some.injEq, Prod.mk.injEq] at heq
      obtain ⟨-, hx2, hy2⟩ := heq
      subst hx2
      subst hy2
      exact ⟨hx.1, hx.2, hy.1, hy.2⟩
    · exact ha d x y heq

theorem foldl_scanUpdate_posOk (img : ℕ → ℕ → ℕ) (roi : ℕ → ℕ → ℚ)
    (w h rw rh : ℕ) (hw : rw ≤ w) (hh : rh ≤ h) (l : List (ℤ × ℤ))
    (acc : Option (ℚ × ℤ × ℤ) × Bool) (ha : posOk w h rw rh acc.1) :
    posOk w h rw rh ((l.foldl (scanUpdate img roi w h rw rh) acc).1) := by
  induction l generalizing acc with
  | nil => exact ha
  | cons p t ih =>
    exact ih _ (scanUpdate_posOk img roi w h rw rh hw hh acc p ha)

theorem searchLoop_posOk (img : ℕ → ℕ → ℕ) (roi : ℕ → ℕ → ℚ)
    (w h rw rh : ℕ) (hw : rw ≤ w) (hh : rh ≤ h) (sx sy : ℤ) (fuel : ℕ)
    (best : Option (ℚ × ℤ × ℤ)) (hb : posOk w h rw rh best) :
    posOk w h rw rh (searchLoop img roi w h rw rh sx sy fuel best) := by
  induction fuel generalizing best with
  | zero => exact hb
  | succ fuel ih =>
    rw [searchLoop_succ]
    have hr := foldl_scanUpdate_posOk img roi w h rw rh hw hh
      (scanPositions sx sy) (best, false) hb
    rw [← scanOnce] at hr
    revert hr
    generalize scanOnce img roi w h rw rh sx sy best = r
    intro hr
    obtain ⟨b, flag⟩ := r
    cases flag with
    | false => simpa using hr
    | true => simpa using ih _ hr

/-- C4 counterexample, brightness strategy: frame 100 px wide, input ROI
`(50, 0)-(100, 50)` entirely inside the frame, blob centroid `(49, 25)`
inside the ROI.  Re-centring moves the top-left corner to `x = 74`, so the
returned box ends at `x = 124 > 100`: the ROI sticks out past the right
frame edge because the brightness branch clamps only at 0. -/
theorem c4_roi_bounds_counterexample :
    (50 : ℤ) + 50 ≤ 100 ∧ (0 : ℤ) ≤ 50 ∧
    (brightRecenter 50 0 50 50 (some (49, 25))).1.1 = 74 ∧
    (brightRecenter 50 0 50 50 (some (49, 25))).2.1 = 124 ∧
    ¬ (brightRecenter 50 0 50 50 (some (49, 25))).2.1 ≤ 100 := by
  have hq : qtrunc (74 : ℚ) = 74 := by
    rw [qtrunc, if_pos (by norm_num)]
    norm_num
  have harg : (((50 : ℤ) : ℚ) - (((50 : ℕ) : ℚ) / 2 - ((49 : ℤ) : ℚ))) = 74 := by
    push_cast
    norm_num
  have hx : (brightRecenter 50 0 50 50 (some (49, 25))).1.1 = 74 := by
    simp only [brightRecenter]
    rw [harg, hq]
    norm_num
  refine ⟨by norm_num, by norm_num, hx, ?_, ?_⟩
  · have h2 : (brightRecenter 50 0 50 50 (some (49, 25))).2.1
        = (brightRecenter 50 0 50 50 (some (49, 25))).1.1 + 50 := rfl
    rw [h2, hx]
    norm_num
  · have h2 : (brightRecenter 50 0 50 50 (some (49, 25))).2.1
        = (brightRecenter 50 0 50 50 (some (49, 25))).1.1 + 50 := rfl
    rw [h2, hx]
    norm_num

/-- C4 amended: the feature strategy's returned ROI always lies inside the
frame whenever it reports a find (the clamping of lines 75-82 is carried
through the search); the brightness strategy enforces only the lower bounds
`0 ≤ x` and `0 ≤ y` — its ROI can extend past the right/bottom frame edge
(see the counterexample). -/
theorem c4_roi_bounds_amended :
    (∀ (img : ℕ → ℕ → ℕ) (w h : ℕ) (roibox : ROIBox) (roi : ℕ → ℕ → ℚ)
        (rw rh fuel : ℕ), rw ≤ w → rh ≤ h →
        (featureLocate img w h roibox roi rw rh fuel).found = true →
        0 ≤ (featureLocate img w h roibox roi rw rh fuel).roibox.1.1 ∧
        (featureLocate img w h roibox roi rw rh fuel).roibox.2.1 ≤ (w : ℤ) ∧
        0 ≤ (featureLocate img w h roibox roi rw rh fuel).roibox.1.2 ∧
        (featureLocate img w h roibox roi rw rh fuel).roibox.2.2 ≤ (h : ℤ)) ∧
    (∀ (sx sy : ℤ) (rw rh : ℕ) (centroid : Option (ℤ × ℤ)),
        0 ≤ sx → 0 ≤ sy →
        0 ≤ (brightRecenter sx sy rw rh centroid).1.1 ∧
        0 ≤ (brightRecenter sx sy rw rh centroid).1.2) := by
  constructor
  · intro img w h roibox roi rw rh fuel hw hh hfound
    have hp := searchLoop_posOk img roi w h rw rh hw hh roibox.1.1 roibox.1.2
      fuel none (fun d x y hcon => Option.noConfusion hcon)
    revert hfound
    unfold featureLocate
    cases hs : searchLoop img roi w h rw rh roibox.1.1 roibox.1.2 fuel none with
    | none => intro hfound; simp [featureAccept] at hfound
    | some p =>
      obtain ⟨d, x2, y2⟩ := p
      rw [hs] at hp
      by_cases hd : d < 20
      · intro _
        simp only [featureAccept, if_pos hd]
        obtain ⟨h1, h2, h3, h4⟩ := hp d x2 y2 rfl
        exact ⟨h1, by omega, h3, by omega⟩
      · intro hfound
        simp [featureAccept, hd] at hfound
  · intro sx sy rw rh centroid hx hy
    cases centroid with
    | none => exact ⟨hx, hy⟩
    | some c =>
      obtain ⟨cx, cy⟩ := c
      simp only [brightRecenter]
      constructor
      · split <;> omega
      · split <;> omega

/- Constant-zero instance used to witness the feature half of the amended
C4 with an actual accepted find: every candidate of the scan clamps to
`(0, 0)` in a 1×1 frame and scores 0. -/

def zeroImg : ℕ → ℕ → ℕ := fun _ _ => 0

def zeroRoi : ℕ → ℕ → ℚ := fun _ _ => 0

theorem clampCoord_zero (c : ℤ) : clampCoord c 0 = 0 := by
  unfold clampCoord
  split_ifs <;> omega

theorem zeroScore (x y : ℕ) : imagediffScore zeroImg zeroRoi x y 1 1 = 0 := by
  rw [imagediffScore, imagediffSum, roiSum]
  have hz : pixDiff ((zeroImg (y + 0) (x + 0) : ℕ) : ℚ) (zeroRoi 0 0) = 0 := by
    rw [zeroImg, zeroRoi, pixDiff, npInt8, npInt8]
    rw [show qtrunc ((0 : ℕ) : ℚ) = 0 from qtrunc_natCast 0,
      show qtrunc (0 : ℚ) = 0 by rw [qtrunc, if_pos le_rfl]; norm_num]
    norm_num [int8wrap, int8abs]
  simp [hz, zeroRoi]

theorem scanUpdate_zero_none (f : Bool) (p : ℤ × ℤ) :
    scanUpdate zeroImg zeroRoi 1 1 1 1 (none, f) p = (some (0, 0, 0), true) := by
  simp [scanUpdate, zeroScore, clampCoord_zero]

theorem scanUpdate_zero_some (f : Bool) (p : ℤ × ℤ) :
    scanUpdate zeroImg zeroRoi 1 1 1 1 (some (0, 0, 0), f) p
      = (some (0, 0, 0), f) := by
  simp [scanUpdate, zeroScore, clampCoord_zero]

theorem foldl_zero_some (l : List (ℤ × ℤ)) (f : Bool) :
    l.foldl (scanUpdate zeroImg zeroRoi 1 1 1 1) (some (0, 0, 0), f)
      = (some (0, 0, 0), f) := by
  induction l with
  | nil => rfl
  | cons p t ih => rw [List.foldl_cons, scanUpdate_zero_some, ih]

theorem foldl_zero_none (l : List (ℤ × ℤ)) (hl : l ≠ []) (f : Bool) :
    l.foldl (scanUpdate zeroImg zeroRoi 1 1 1 1) (none, f)
      = (some (0, 0, 0), true) := by
  cases l with
  | nil => exact absurd rfl hl
  | cons p t => rw [List.foldl_cons, scanUpdate_zero_none, foldl_zero_some]

theorem scanPositions_ne_nil : scanPositions 15 15 ≠ [] := by decide

theorem searchLoop_zero :
    searchLoop zeroImg zeroRoi 1 1 1 1 15 15 1 none = some (0, 0, 0) := by
  rw [show (1 : ℕ) = 0 + 1 from rfl, searchLoop_succ, scanOnce,
    foldl_zero_none (scanPositions 15 15) scanPositions_ne_nil false]
  simp [searchLoop]

/-- Witness for the amended C4: a concrete accepted find in a 1×1 frame
yields the in-bounds box `(0,0)-(1,1)`; the bright half at the
counterexample's inputs still satisfies the lower bounds. -/
theorem c4_roi_bounds_amended_witness :
    (featureLocate zeroImg 1 1 ((15, 15), (16, 16)) zeroRoi 1 1 1).found = true ∧
    (0 ≤ (featureLocate zeroImg 1 1 ((15, 15), (16, 16)) zeroRoi 1 1 1).roibox.1.1 ∧
     (featureLocate zeroImg 1 1 ((15, 15), (16, 16)) zeroRoi 1 1 1).roibox.2.1 ≤ 1 ∧
     0 ≤ (featureLocate zeroImg 1 1 ((15, 15), (16, 16)) zeroRoi 1 1 1).roibox.1.2 ∧
     (featureLocate zeroImg 1 1 ((15, 15), (16, 16)) zeroRoi 1 1 1).roibox.2.2 ≤ 1) ∧
    (0 ≤ (brightRecenter 50 0 50 50 (some (49, 25))).1.1 ∧
     0 ≤ (brightRecenter 50 0 50 50 (some (49, 25))).1.2) := by
  have hfound : (featureLocate zeroImg 1 1 ((15, 15), (16, 16)) zeroRoi 1 1 1).found
      = true := by
    simp only [featureLocate]
    rw [searchLoop_zero]
    simp [featureAccept]
  refine ⟨hfound, ?_, ?_⟩
  · exact c4_roi_bounds_amended.1 zeroImg 1 1 ((15, 15), (16, 16)) zeroRoi 1 1 1
      le_rfl le_rfl hfound
  · exact c4_roi_bounds_amended.2 50 0 50 50 (some (49, 25)) (by norm_num)
      (by norm_num)

/- ## C2: correction accumulators (sat_track, LX200 branches)

`sat_track` keeps four per-axis correction accumulators plus
`lasttotaldiff`.  The code compares the square-root distances
`totaldiff = sqrt(a² + b²)`; since `sqrt` is strictly monotone on
nonnegative reals, the comparison `lasttotaldiff < totaldiff` is modelled
by comparing the stored squares. -/

structure TrackState where
  altcorrect : ℚ
  azcorrect : ℚ
  deccorrect : ℚ
  racorrect : ℚ
  lasttotaldiffSq : ℚ
  i : ℕ

/-- Lines 370-381: all accumulators start at zero when `sat_track` begins
(before the initial slew). -/
def satTrackInitState : TrackState :=
  { altcorrect := 0, azcorrect := 0, deccorrect := 0, racorrect := 0,
    lasttotaldiffSq := 0, i := 0 }

/-- LX200 Alt/Az ephemeris-following correction step (lines 495,
584-599): `i` is incremented each cycle, and every time `i > 100` the
measured error is added to `altcorrect`/`azcorrect` unconditionally — there
is no `lasttotaldiff < totaldiff` guard in this branch. -/
def lx200AltAzEphemStep (s : TrackState) (altdiff azdiff : ℚ) : TrackState :=
  let i1 := s.i + 1
  if 100 < i1 then
    { s with altcorrect := s.altcorrect + altdiff,
             azcorrect := s.azcorrect + azdiff,
             lasttotaldiffSq := altdiff ^ 2 + azdiff ^ 2,
             i := 0 }
  else { s with i := i1 }

/-- LX200 Eq ephemeris-following correction step (lines 610-633): the
accumulators grow only when the new total error exceeds the previous one
(`if self.lasttotaldiff < totaldiff`), and `lasttotaldiff` is then
updated. -/
def lx200EqEphemStep (s : TrackState) (decdiff radiff : ℚ) : TrackState :=
  let totSq := decdiff ^ 2 + radiff ^ 2
  let s1 :=
    if s.lasttotaldiffSq < totSq then
      { s with deccorrect := s.deccorrect + decdiff,
               racorrect := s.racorrect + radiff }
    else s
  { s1 with lasttotaldiffSq := totSq, i := 0 }

/-- A run of Eq ephemeris-following cycles over a list of per-cycle error
pairs. -/
def eqEphemRun (l : List (ℚ × ℚ)) (s : TrackState) : TrackState :=
  l.foldl (fun s p => lx200EqEphemStep s p.1 p.2) s

/-- `monotonically decreasing errors`: each cycle's total (squared) error is
at most the previous cycle's. -/
def nonIncreasingFrom : ℚ → List (ℚ × ℚ) → Prop
  | _, [] => True
  | last, p :: rest =>
    p.1 ^ 2 + p.2 ^ 2 ≤ last ∧ nonIncreasingFrom (p.1 ^ 2 + p.2 ^ 2) rest

/-- Commands the LX200 visual-follow bodies write to the serial port,
abstracted to their target angles (the sexagesimal rendering is studied
separately in the codec section). -/
inductive SerCmd
  | setAz : ℚ → SerCmd
  | setAlt : ℚ → SerCmd
  | goAltAz : SerCmd
  | setRa : ℚ → SerCmd
  | setDec : ℚ → SerCmd
  | goEq : SerCmd

/-- Per-cycle inputs of a visual-follow body: whether a newer frame arrived
(`self.dnow > self.dlast`), whether the spherical-trig `try` block succeeded,
the pixel-derived sky deltas (radians) it produced, and the ephemeris
prediction. -/
structure VisualIn where
  dnowGtDlast : Bool
  mathOk : Bool
  altdiff : ℚ
  azdiff : ℚ
  radalt : ℚ
  radaz : ℚ
  radra : ℚ
  raddec : ℚ

/-- LX200 visual-follow Alt/Az body (lines 752-798): on a fresh frame with
successful math, accumulate only when the total error grew
(`if self.lasttotaldiff < totaldiff`), update `lasttotaldiff`, then always
command the corrected target (`:Sz`, `:Sa`, `:MA#`). -/
def lx200VisualAltAzBody (s : TrackState) (inp : VisualIn) :
    TrackState × List SerCmd :=
  let s1 :=
    if inp.dnowGtDlast && inp.mathOk then
      let totSq := inp.altdiff ^ 2 + inp.azdiff ^ 2
      let s2 :=
        if s.lasttotaldiffSq < totSq then
          { s with altcorrect := s.altcorrect + inp.altdiff,
                   azcorrect := s.azcorrect + inp.azdiff }
        else s
      { s2 with lasttotaldiffSq := totSq }
    else s
  (s1, [SerCmd.setAz (inp.radaz + s1.azcorrect),
        SerCmd.setAlt (inp.radalt + s1.altcorrect), SerCmd.goAltAz])

/-- LX200 visual-follow `EQ` body (lines 799-842): its `try` block reads the
names `objectdec` and `diffinra`, which are never assigned in this branch,
so it always raises `NameError` before touching the accumulators; the body
still writes the three target commands (`:Sr`, `:Sd`, `:MS#`). -/
def lx200VisualEqBody (s : TrackState) (inp : VisualIn) :
    TrackState × List SerCmd :=
  (s, [SerCmd.setRa (inp.radra + s.racorrect),
       SerCmd.setDec (inp.raddec + s.deccorrect), SerCmd.goEq])

/-- C2 counterexample: in the LX200 Alt/Az ephemeris branch, from a state
with previous total error `sqrt 100` and a correction cycle due
(`i = 100`), an error of `altdiff = 1, azdiff = 0` — total `1 < 100`,
i.e. strictly smaller than the previous cycle's — still changes the
accumulator from `0` to `1`. -/
theorem c2_accumulator_counterexample :
    (lx200AltAzEphemStep
        { altcorrect := 0, azcorrect := 0, deccorrect := 0, racorrect := 0,
          lasttotaldiffSq := 100, i := 100 } 1 0).altcorrect ≠ 0 ∧
    ((1 : ℚ) ^ 2 + 0 ^ 2 < 100) := by
  constructor
  · norm_num [lx200AltAzEphemStep]
  · norm_num

/-- C2 amended: the guarded branches behave as claimed — the Eq ephemeris
step and the visual-lock Alt/Az body leave the accumulators unchanged when
the error did not grow, a monotonically decreasing run keeps them at their
initial zero, and the accumulators start at zero — but the LX200 Alt/Az
ephemeris branch accumulates the current error on every correction cycle
(`i > 100`) unconditionally, even when the error decreased. -/
theorem c2_accumulator_policy_amended :
    (∀ (s : TrackState) (decdiff radiff : ℚ),
        decdiff ^ 2 + radiff ^ 2 ≤ s.lasttotaldiffSq →
        (lx200EqEphemStep s decdiff radiff).deccorrect = s.deccorrect ∧
        (lx200EqEphemStep s decdiff radiff).racorrect = s.racorrect) ∧
    (∀ (l : List (ℚ × ℚ)) (s : TrackState),
        s.deccorrect = 0 → s.racorrect = 0 →
        nonIncreasingFrom s.lasttotaldiffSq l →
        (eqEphemRun l s).deccorrect = 0 ∧ (eqEphemRun l s).racorrect = 0) ∧
    (∀ (s : TrackState) (inp : VisualIn),
        inp.altdiff ^ 2 + inp.azdiff ^ 2 ≤ s.lasttotaldiffSq →
        (lx200VisualAltAzBody s inp).1.altcorrect = s.altcorrect ∧
        (lx200VisualAltAzBody s inp).1.azcorrect = s.azcorrect) ∧
    (∀ (s : TrackState) (altdiff azdiff : ℚ), 100 < s.i + 1 →
        (lx200AltAzEphemStep s altdiff azdiff).altcorrect
          = s.altcorrect + altdiff ∧
        (lx200AltAzEphemStep s altdiff azdiff).azcorrect
          = s.azcorrect + azdiff) ∧
    (satTrackInitState.altcorrect = 0 ∧ satTrackInitState.azcorrect = 0 ∧
     satTrackInitState.deccorrect = 0 ∧ satTrackInitState.racorrect = 0) := by
  refine ⟨?_, ?_, ?_, ?_, by constructor <;> norm_num [satTrackInitState]⟩
  · intro s decdiff radiff hle
    rw [lx200EqEphemStep]
    simp only [if_neg (not_lt.2 hle)]
    exact ⟨trivial, trivial⟩
  · intro l
    induction l with
    | nil => intro s h1 h2 _; exact ⟨h1, h2⟩
    | cons p t ih =>
      intro s h1 h2 hni
      obtain ⟨hle, hrest⟩ := hni
      have hstep : (lx200EqEphemStep s p.1 p.2).deccorrect = 0 ∧
          (lx200EqEphemStep s p.1 p.2).racorrect = 0 ∧
          (lx200EqEphemStep s p.1 p.2).lasttotaldiffSq = p.1 ^ 2 + p.2 ^ 2 := by
        rw [lx200EqEphemStep]
        simp only [if_neg (not_lt.2 hle)]
        exact ⟨h1, h2, trivial⟩
      have := ih (lx200EqEphemStep s p.1 p.2) hstep.1 hstep.2.1
        (by rw [hstep.2.2]; exact hrest)
      exact this
  · intro s inp hle
    rw [lx200VisualAltAzBody]
    by_cases hc : inp.dnowGtDlast && inp.mathOk
    · simp only [hc, if_true, if_neg (not_lt.2 hle)]
      exact ⟨trivial, trivial⟩
    · simp [hc]
  · intro s altdiff azdiff hi
    rw [lx200AltAzEphemStep]
    simp only [if_pos hi]
    exact ⟨trivial, trivial⟩

/-- Witness for the amended C2: starting from zero accumulators with
previous total error `sqrt 100`, a two-cycle run with shrinking errors
(`1`, then `0`) leaves both Eq accumulators at zero. -/
theorem c2_accumulator_policy_amended_witness :
    (eqEphemRun [(1, 0), (0, 0)]
        { altcorrect := 0, azcorrect := 0, deccorrect := 0, racorrect := 0,
          lasttotaldiffSq := 100, i := 0 }).deccorrect = 0 ∧
    (eqEphemRun [(1, 0), (0, 0)]
        { altcorrect := 0, azcorrect := 0, deccorrect := 0, racorrect := 0,
          lasttotaldiffSq := 100, i := 0 }).racorrect = 0 :=
  c2_accumulator_policy_amended.2.1 [(1, 0), (0, 0)]
    { altcorrect := 0, azcorrect := 0, deccorrect := 0, racorrect := 0,
      lasttotaldiffSq := 100, i := 0 } rfl rfl
    (by norm_num [nonIncreasingFrom])

/- ## C5: calibration loop exit and motion zeroing (set_calibration) -/

/-- One poll of the calibration loop: the measured pixel displacement from
the start position and the `trackSettings.calibratestart` flag at that
instant. -/
structure CalibSample where
  distmoved : ℚ
  calibratestart : Bool

/-- Commands issued by the calibration routine. -/
inductive CalCmd
  | moveAxis : ℕ → ℚ → CalCmd
  | serWrite : String → CalCmd
deriving DecidableEq

/-- The ASCOM calibration motion loop (lines 1037-1043 and its three
clones): `while distmoved < 100 and trackSettings.calibratestart is True:`
re-issues `MoveAxis(1, rate)`; on exit the axis is zeroed with
`MoveAxis(1, 0.0)`.  The run is driven by a finite trace of polled samples;
the Boolean result records whether the loop exited within the trace. -/
def ascomCalibLoop (rate : ℚ) : List CalibSample → List CalCmd × Bool
  | [] => ([], false)
  | s :: rest =>
    if s.distmoved < 100 ∧ s.calibratestart then
      let r := ascomCalibLoop rate rest
      (CalCmd.moveAxis 1 rate :: r.1, r.2)
    else ([CalCmd.moveAxis 1 0], true)

/-- The LX200 calibration motion loop (lines 1122-1131, 1141-1150):
`while distmoved < 100:` re-issues the move command (`:Mn#`/`:Ms#`); the
guard does not consult `calibratestart`.  On exit the stop command
(`:Qn#`/`:Qs#`) is written. -/
def lx200CalibLoop (moveCmd stopCmd : String) :
    List CalibSample → List CalCmd × Bool
  | [] => ([], false)
  | s :: rest =>
    if s.distmoved < 100 then
      let r := lx200CalibLoop moveCmd stopCmd rest
      (CalCmd.serWrite moveCmd :: r.1, r.2)
    else ([CalCmd.serWrite stopCmd], true)

/-- C5: the ASCOM loop is cancellable (any sample with `calibratestart`
cleared ends the loop) and zeroes the axis on exit; the LX200 loop ignores
cancellation — as long as the displacement stays below the 100-pixel
threshold it keeps commanding motion for the whole trace, no matter what
`calibratestart` is — and only a threshold exit reaches the stop command. -/
theorem c5_calibration_exit_paths :
    (∀ trace : List CalibSample, (∀ s ∈ trace, s.distmoved < 100) →
        (lx200CalibLoop ":Mn#" ":Qn#" trace).2 = false) ∧
    (∀ trace : List CalibSample, ∀ s ∈ trace, s.calibratestart = false →
        (ascomCalibLoop (1 / 10) trace).2 = true) ∧
    (∀ trace : List CalibSample, (ascomCalibLoop (1 / 10) trace).2 = true →
        (ascomCalibLoop (1 / 10) trace).1.getLast? = some (CalCmd.moveAxis 1 0)) ∧
    (∀ trace : List CalibSample, (lx200CalibLoop ":Mn#" ":Qn#" trace).2 = true →
        (lx200CalibLoop ":Mn#" ":Qn#" trace).1.getLast?
          = some (CalCmd.serWrite ":Qn#")) := by
  refine ⟨?_, ?_, ?_, ?_⟩
  · intro trace hall
    induction trace with
    | nil => rfl
    | cons s rest ih =>
      rw [lx200CalibLoop]
      rw [if_pos (hall s (List.mem_cons_self s rest))]
      exact ih fun t ht => hall t (List.mem_cons_of_mem s ht)
  · intro trace s hmem hfalse
    induction trace with
    | nil => exact absurd hmem (List.not_mem_nil s)
    | cons t rest ih =>
      rw [ascomCalibLoop]
      by_cases hg : t.distmoved < 100 ∧ t.calibratestart
      · rw [if_pos hg]
        rcases List.mem_cons.1 hmem with heq | hmem2
        · subst heq
          rw [hfalse] at hg
          exact absurd hg.2 (by simp)
        · exact ih hmem2
      · rw [if_neg hg]
  · intro trace
    induction trace with
    | nil => intro hcon; exact absurd hcon (by simp [ascomCalibLoop])
    | cons t rest ih =>
      rw [ascomCalibLoop]
      by_cases hg : t.distmoved < 100 ∧ t.calibratestart
      · rw [if_pos hg]
        intro hexit
        have hlast := ih hexit
        have hne : (ascomCalibLoop (1 / 10) rest).1 ≠ [] := by
          intro hnil
          rw [hnil] at hlast
          exact absurd hlast (by simp)
        rw [List.getLast?_cons, hlast]
        cases hc : (ascomCalibLoop (1 / 10) rest).1 with
        | nil => exact absurd hc hne
        | cons a l => rw [hc] at hlast; simpa using hlast
      · rw [if_neg hg]
        intro _
        rfl
  · intro trace
    induction trace with
    | nil => intro hcon; exact absurd hcon (by simp [lx200CalibLoop])
    | cons t rest ih =>
      rw [lx200CalibLoop]
      by_cases hg : t.distmoved < 100
      · rw [if_pos hg]
        intro hexit
        have hlast := ih hexit
        have hne : (lx200CalibLoop ":Mn#" ":Qn#" rest).1 ≠ [] := by
          intro hnil
          rw [hnil] at hlast
          exact absurd hlast (by simp)
        rw [List.getLast?_cons, hlast]
        cases hc : (lx200CalibLoop ":Mn#" ":Qn#" rest).1 with
        | nil => exact absurd hc hne
        | cons a l => rw [hc] at hlast; simpa using hlast
      · rw [if_neg hg]
        intro _
        rfl

/-- Witness for C5: a three-sample trace with the target lost (displacement
stuck at 0) and calibration cancelled from the second sample on — the ASCOM
loop exits (and its last command zeroes the axis) while the LX200 loop is
still running at the end of the trace. -/
theorem c5_calibration_exit_paths_witness :
    (lx200CalibLoop ":Mn#" ":Qn#"
        [⟨0, true⟩, ⟨0, false⟩, ⟨0, false⟩]).2 = false ∧
    (ascomCalibLoop (1 / 10) [⟨0, true⟩, ⟨0, false⟩, ⟨0, false⟩]).2 = true ∧
    (ascomCalibLoop (1 / 10) [⟨0, true⟩, ⟨0, false⟩, ⟨0, false⟩]).1.getLast?
      = some (CalCmd.moveAxis 1 0) := by
  have h1 := c5_calibration_exit_paths.1 [⟨0, true⟩, ⟨0, false⟩, ⟨0, false⟩]
    (by intro s hs; fin_cases hs <;> norm_num)
  have h2 := c5_calibration_exit_paths.2.1 [⟨0, true⟩, ⟨0, false⟩, ⟨0, false⟩]
    ⟨0, false⟩ (by simp) rfl
  exact ⟨h1, h2, c5_calibration_exit_paths.2.2.1 _ h2⟩

/- ## C8: sign of the azimuth-like delta (pixel offset → sky delta) -/

/-- `objectangle = math.degrees(math.atan2(objectvertical, objecthorizontal))
- 90` (line 667); the `atan2` result in degrees is supplied by the math
library and enters here as a parameter. -/
def objectangle (atan2deg : ℚ) : ℚ := atan2deg - 90

/-- `objectangle2 = math.degrees(math.atan2(objectvertical,
objecthorizontal))` (line 668) — the unshifted angle. -/
def objectangle2 (atan2deg : ℚ) : ℚ := atan2deg

/-- Lines 672-674: `if math.fabs(objectangle2) > 90: diffinaz = -1 *
diffinaz` — the sign flip is keyed on the *unshifted* angle. -/
def diffinazEmitted (atan2deg diffinaz : ℚ) : ℚ :=
  if |objectangle2 atan2deg| > 90 then -1 * diffinaz else diffinaz

/-- Stated from the spec's words, for comparison: `negated when
|angle| > 90°` with `angle = atan2(-dy, dx) - 90°`. -/
def diffinazSpec (atan2deg diffinaz : ℚ) : ℚ :=
  if |objectangle atan2deg| > 90 then -1 * diffinaz else diffinaz

/-- C8 counterexample: at `atan2 = 135°` (attained at pixel offset
`dx = -1, dy = -1`, where `atan2(-dy, dx) = 135°`) with a positive delta,
the code negates (`|135| > 90`) while the claimed condition
(`|135 - 90| = 45 > 90`) does not. -/
theorem c8_negation_counterexample :
    diffinazEmitted 135 1 = -1 ∧ diffinazSpec 135 1 = 1 ∧
    diffinazEmitted 135 1 ≠ diffinazSpec 135 1 := by
  refine ⟨?_, ?_, ?_⟩ <;>
    norm_num [diffinazEmitted, diffinazSpec, objectangle, objectangle2]

/-- C8 amended: the azimuth-like delta is negated exactly when the
*unshifted* `atan2` angle — i.e. `angle + 90°` for the spec's shifted
`angle` — exceeds 90° in magnitude. -/
theorem c8_negation_condition (atan2deg diffinaz : ℚ) :
    diffinazEmitted atan2deg diffinaz
      = if |objectangle atan2deg + 90| > 90 then -1 * diffinaz
        else diffinaz := by
  rw [diffinazEmitted, objectangle2, objectangle, sub_add_cancel]

/- ## C10: the dead `EQ` visual-follow branch -/

/-- The two LX200 visual-follow mount-type guards of `sat_track`
(`if trackSettings.mounttype == 'AltAz':` at line 752 and
`if trackSettings.mounttype == 'EQ':` at line 799), in sequence. -/
def lx200VisualStep (mounttype : String) (s : TrackState) (inp : VisualIn) :
    TrackState × List SerCmd :=
  let r1 := if mounttype == "AltAz" then lx200VisualAltAzBody s inp else (s, [])
  let r2 := if mounttype == "EQ" then lx200VisualEqBody r1.1 inp else (r1.1, [])
  (r2.1, r1.2 ++ r2.2)

/-- `trackSettings.mounttype` initial value (line 26). -/
def trackSettings_mounttype_init : String := "AltAz"

/-- `setLX200AltAz` (lines 851-853). -/
def setLX200AltAz_mounttype : String := "AltAz"

/-- `setLX200Eq` (lines 855-857). -/
def setLX200Eq_mounttype : String := "Eq"

/-- `setASCOMAltAz` (lines 865-867). -/
def setASCOMAltAz_mounttype : String := "AltAz"

/-- `setASCOMEq` (lines 869-871). -/
def setASCOMEq_mounttype : String := "Eq"

/-- Every value any handler (or the class initializer) ever assigns to
`trackSettings.mounttype`. -/
def mounttypeAssigned : List String :=
  [trackSettings_mounttype_init, setLX200AltAz_mounttype,
   setLX200Eq_mounttype, setASCOMAltAz_mounttype, setASCOMEq_mounttype]

/-- C10: with the mount type set by `setLX200Eq` (the string `"Eq"`), the
LX200 visual-follow cycle writes nothing to the serial transport and leaves
the whole tracking state — correction accumulators included — unchanged,
because the branch compares against `"EQ"`, a value no assignment ever
produces. -/
theorem c10_eq_visual_branch_dead :
    (∀ (s : TrackState) (inp : VisualIn),
        lx200VisualStep setLX200Eq_mounttype s inp = (s, [])) ∧
    "EQ" ∉ mounttypeAssigned ∧ setLX200Eq_mounttype = "Eq" := by
  refine ⟨?_, by decide, rfl⟩
  intro s inp
  rw [lx200VisualStep, setLX200Eq_mounttype]
  rw [show (("Eq" : String) == "AltAz") = false from by decide,
    show (("Eq" : String) == "EQ") = false from by decide]
  simp

end SatTraker
